import Mathlib

/-!
Verification of the google-photos-synology-sync server against its design
document.  The JavaScript services are shallowly embedded as executable Lean
functions: Maps become association lists (preserving insertion/iteration
order), the filesystem becomes a list of existing paths, wall-clock times are
millisecond naturals/integers, and the polled pause/cancel flags become
functions from poll index to Bool.  Each definition carries a comment naming
the source file and lines it embeds.
-/

namespace GPSync

/-! ## Small JavaScript-flavoured helpers -/

/-- Membership test on an association list, used for Map.get. -/
def assocGet (m : List (String × α)) (k : String) : Option α :=
  (m.find? (fun p => p.1 == k)).map Prod.snd

/-- Map.delete: removes every binding of the key (a JS Map has at most one). -/
def assocDelete (m : List (String × α)) (k : String) : List (String × α) :=
  m.filter (fun p => !(p.1 == k))

/-- fs.existsSync: the disk is the list of paths that currently exist. -/
def diskHas (disk : List String) (p : String) : Bool :=
  disk.contains p

/-- String.prototype.endsWith, computed structurally on the character
list so that concrete instances evaluate by rfl. -/
def strEndsWith (s suffix : String) : Bool :=
  suffix.toList.isSuffixOf s.toList

/-- Drop the last n characters of a string. -/
def strDropRight (s : String) (n : Nat) : String :=
  String.mk (s.toList.take (s.toList.length - n))

/-- Keep the last n characters of a string (String.prototype.slice with a
negative index). -/
def strTakeRight (s : String) (n : Nat) : String :=
  String.mk (s.toList.drop (s.toList.length - n))

/-- String.prototype.split with a one-character separator: an empty input
gives one empty field, a separator occurrence always opens a new field. -/
def splitChar (c : Char) (cs : List Char) : List (List Char) :=
  cs.foldr
    (fun x acc =>
      match acc with
      | [] => [[x]]
      | a :: rest => if x == c then [] :: a :: rest else (x :: a) :: rest)
    [[]]

/-- Contiguous-sublist test on character lists. -/
def listInfix (sub s : List Char) : Bool :=
  (List.range (s.length + 1)).any (fun i => sub.isPrefixOf (s.drop i))

/-- String.prototype.includes(sub). -/
def strIncludes (s sub : String) : Bool :=
  listInfix sub.toList s.toList

/-- path.join for one directory and one file name. -/
def pathJoin (a b : String) : String := a ++ "/" ++ b

/-- path.extname for an ordinary file name (no directory separators): the
substring from the last dot onward, except that a dot in first position does
not start an extension. -/
def extname (s : String) : String :=
  let cs := s.toList
  match cs.reverse.findIdx? (fun c => c == '.') with
  | none => ""
  | some k =>
    let i := cs.length - 1 - k
    if i == 0 then "" else String.mk (cs.drop i)

/-- path.basename(s, ext) for an ordinary file name: strips a trailing ext
unless ext is empty or equal to the whole name. -/
def basenameExt (s ext : String) : String :=
  if ext != "" && strEndsWith s ext && s != ext then strDropRight s ext.length
  else s

/-- JavaScript truthiness of an optional string: undefined and the empty
string are falsy. -/
def truthy : Option String → Bool
  | none => false
  | some s => s != ""

/-! ## Sync cache ledger (src/server/services/sync.cache.service.js) -/

/-- An entry of the syncCache Map.  localPath and lastSync are the fields the
claims touch; lastSync is the recorded timestamp in milliseconds, with none
modelling a string that parses to NaN; payload stands for the remaining
recorded fields (fileName, mediaMetadata, mimeType, verified), which the
cleanup pass never looks at. -/
structure CacheEntry where
  localPath : String
  lastSync : Option Int
  payload : String
deriving Repr, DecidableEq

/-- Map.get on the sync cache (sync.cache.service.js getItem, lines 93-95). -/
def cacheGet (cache : List (String × CacheEntry)) (id : String) : Option CacheEntry :=
  assocGet cache id

/-- isItemSynced (sync.cache.service.js lines 97-100): literally
item ? true : false on the Map lookup; no synced flag and no disk check. -/
def isItemSynced (cache : List (String × CacheEntry)) (id : String) : Bool :=
  (cacheGet cache id).isSome

/-- The already-synced skip test at the top of downloadItem
(sync.service.js lines 113-118): cachedItem && fs.existsSync(cachedItem.localPath). -/
def downloadItemSkips (cache : List (String × CacheEntry)) (disk : List String)
    (id : String) : Bool :=
  match cacheGet cache id with
  | some e => diskHas disk e.localPath
  | none => false

/-- The default maxAge of SyncCacheService.cleanup: 30 days in milliseconds. -/
def thirtyDaysMs : Int := 30 * 24 * 60 * 60 * 1000

/-- The expiry test of SyncCacheService.cleanup (line 114-115):
now - new Date(data.lastSync).getTime() > maxAge; an unparseable lastSync
gives NaN, every comparison with which is false, so the entry is retained. -/
def entryExpired (now maxAge : Int) (e : CacheEntry) : Bool :=
  match e.lastSync with
  | some t => decide (now - t > maxAge)
  | none => false

/-- SyncCacheService.cleanup (sync.cache.service.js lines 109-126): deletes
every expired entry while iterating the Map, then marks the cache dirty and
saves it iff at least one entry was deleted.  Returns the pruned cache and
whether saveCache wrote it out. -/
def cacheCleanup (now maxAge : Int) (cache : List (String × CacheEntry)) :
    List (String × CacheEntry) × Bool :=
  (cache.filter (fun p => !entryExpired now maxAge p.2),
   cache.any (fun p => entryExpired now maxAge p.2))

/-! ## Photos service sync state and duplicate detection (src/unnamed/part_003) -/

/-- An entry of PhotosService.syncState: synced flag plus recorded path
(part_003 lines 424-428 and 461-465). -/
structure PSyncEntry where
  synced : Bool
  path : String
deriving Repr, DecidableEq

/-- A media item as read by findDuplicateFile and generateFileName.
creationTime is the already-parsed new Date(...).getTime() value, with none
for NaN. -/
structure PhotoItem where
  id : String
  filename : String
  creationTime : Option Int
deriving Repr, DecidableEq

/-- The string interpolation of a parsed timestamp; NaN prints as NaN. -/
def tsStringOf : Option Int → String
  | some t => toString t
  | none => "NaN"

/-- The id suffix extracted from a file name by findDuplicateFile line 640:
match.split(underscore).pop().split(dot)[0]. -/
def matchIdOf (f : String) : String :=
  match (splitChar '_' f.toList).reverse with
  | [] => ""
  | last :: _ =>
    match splitChar '.' last with
    | [] => String.mk last
    | h :: _ => String.mk h

/-- The directory scan of findDuplicateFile (part_003 lines 627-645): keeps
files whose name contains an underscore-delimited copy of the creation
timestamp and ends with the extension of the item file name, then returns the
first whose trailing id fragment is a suffix of the item id. -/
def findTimestampMatch (item : PhotoItem) (syncDir : String)
    (dirFiles : List String) : Option String :=
  let needle := "_" ++ tsStringOf item.creationTime ++ "_"
  let ext := extname item.filename
  let potential := dirFiles.filter (fun f => strIncludes f needle && strEndsWith f ext)
  (potential.find? (fun f => strEndsWith item.id (matchIdOf f))).map (pathJoin syncDir)

/-- findDuplicateFile (part_003 lines 612-652).  First the syncState is
consulted by id: a synced entry whose recorded path still exists wins; a
synced entry whose path has vanished causes syncState.delete(item.id) - the
WHOLE entry is removed - before falling through to the directory scan.
Returns the found path (if any) and the updated syncState. -/
def findDuplicateFile (item : PhotoItem) (syncDir : String)
    (syncState : List (String × PSyncEntry)) (disk : List String)
    (dirFiles : List String) :
    Option String × List (String × PSyncEntry) :=
  match assocGet syncState item.id with
  | some e =>
    if e.synced then
      if diskHas disk e.path then (some e.path, syncState)
      else (findTimestampMatch item syncDir dirFiles, assocDelete syncState item.id)
    else (findTimestampMatch item syncDir dirFiles, syncState)
  | none => (findTimestampMatch item syncDir dirFiles, syncState)

/-! ## Rate limiter (src/unnamed/part_003 lines 109-142) -/

/-- The configured ceiling, field RATE LIMIT of PhotosService (line 20). -/
def rateLimitCeiling : Nat := 250

/-- One minute in milliseconds. -/
def minuteMs : Nat := 60000

/-- The limiter state: requestsThisMinute and lastRequestTime (which anchors
the current window; it is only updated when the counter resets). -/
structure LimSt where
  requestsThisMinute : Nat
  lastRequestTime : Nat
deriving Repr, DecidableEq

/-- The pre-call throttling of rateLimitedRequest (part_003 lines 110-129):
reset the counter if a minute has elapsed since the window anchor; if the
counter has reached the ceiling, sleep until the anchor plus one minute and
reset; finally count the request.  Returns the time at which the request is
issued and the state after the counter increment. -/
def limiterAdmit (st : LimSt) (now : Nat) : Nat × LimSt :=
  let elapsed := now - st.lastRequestTime
  let st1 := if elapsed ≥ minuteMs then LimSt.mk 0 now else st
  if st1.requestsThisMinute ≥ rateLimitCeiling then
    let issueAt := now + (minuteMs - elapsed)
    (issueAt, LimSt.mk 1 issueAt)
  else
    (now, LimSt.mk (st1.requestsThisMinute + 1) st1.lastRequestTime)

/-- A sequence of permitted calls through the limiter, each arriving at the
given wall-clock time; every call succeeds.  Returns the times at which the
requests were actually issued, plus the final state. -/
def limiterRun (st : LimSt) : List Nat → List Nat × LimSt
  | [] => ([], st)
  | t :: ts =>
    let a := limiterAdmit st t
    let r := limiterRun a.2 ts
    (a.1 :: r.1, r.2)

/-- Outcome of one invocation of the wrapped requestFn. -/
inductive CallRes where
  | ok (v : Nat)
  | err (status : Option Nat) (retryAfter : Option Nat)
deriving Repr, DecidableEq

/-- parseInt(headers of retry-after) || 60 (part_003 line 134): an absent
header parses to NaN and falls back to 60; so does an explicit 0, because 0
is falsy. -/
def effRetryAfter : Option Nat → Nat
  | none => 60
  | some n => if n == 0 then 60 else n

/-- The result of rateLimitedRequest: the value or the propagated error (with
the status and retry-after data it carried, unchanged), how many times
requestFn was invoked, the sleeps performed by the 429 handler (ms), and the
final limiter state. -/
structure ReqOutcome where
  result : Except (Option Nat × Option Nat) Nat
  calls : Nat
  sleptMs : List Nat
  finalSt : LimSt
deriving Repr

/-- rateLimitedRequest (part_003 lines 109-142).  first and second are the
outcomes the wrapped requestFn would produce on its first invocation and on
the single retry.  A failure whose response status is 429 sleeps for the
parsed retry-after (seconds, times 1000), zeroes requestsThisMinute, and
re-invokes requestFn exactly once, whose outcome - success or any error -
is returned unchanged; every other error propagates immediately. -/
def rateLimitedRequest (st : LimSt) (now : Nat) (first second : CallRes) :
    ReqOutcome :=
  let a := limiterAdmit st now
  match first with
  | .ok v => ⟨.ok v, 1, [], a.2⟩
  | .err status ra =>
    if status == some 429 then
      let wait := effRetryAfter ra * 1000
      let st2 := LimSt.mk 0 a.2.lastRequestTime
      match second with
      | .ok v => ⟨.ok v, 2, [wait], st2⟩
      | .err s2 r2 => ⟨.error (s2, r2), 2, [wait], st2⟩
    else ⟨.error (status, ra), 1, [], a.2⟩

/-! ## Catalog discovery engine (second PhotosService, in the file that also
holds settings.routes.js; same shape as src/index.js).  This is the variant
whose results carry hasMore and whose returned array carries nextPageToken -
the fields the /discover route (src/unnamed/part_002 lines 244-256) reads. -/

/-- A media item as the discovery loop sees it: classification flags from
mediaMetadata.photo / mediaMetadata.video and the parsed creation timestamp
(none when mediaMetadata or creationTime is missing). -/
structure DItem where
  id : String
  isPhoto : Bool
  isVideo : Bool
  creationTime : Option Int
deriving Repr, DecidableEq

/-- The running accumulator of the discovery do-while loop. -/
structure DiscoAcc where
  items : List DItem
  photoCount : Nat
  videoCount : Nat
  sizeEst : Nat
  pagesScanned : Nat
  nextToken : Option Nat
deriving Repr, DecidableEq

/-- Per-page counting of the discovery loop (lines 389-397): photos add 5MB to
the size estimate, videos 20MB. -/
def countPage (acc : DiscoAcc) (page : List DItem) : DiscoAcc :=
  page.foldl
    (fun a it =>
      if it.isPhoto then
        { a with photoCount := a.photoCount + 1, sizeEst := a.sizeEst + 5 * 1024 * 1024 }
      else if it.isVideo then
        { a with videoCount := a.videoCount + 1, sizeEst := a.sizeEst + 20 * 1024 * 1024 }
      else a)
    acc

/-- The provider catalog: a list of pages.  An opaque page token is modelled
as the index of the page it continues from; mediaItems.list returns page i
together with a next token iff a page i+1 exists. -/
def fetchPage (catalog : List (List DItem)) (tok : Option Nat) :
    List DItem × Option Nat :=
  let i := tok.getD 0
  (catalog.getD i [], if i + 1 < catalog.length then some (i + 1) else none)

/-- The discovery do-while loop (lines 370-408).  fuel is the number of page
fetches the maxPages bound still allows (maxPages - pageCount), so it starts
at maxPages ≥ 1; cancel gives the isCancelled flag observed at the top of
each iteration (the flag can only change across the awaited page fetch, so
one read per iteration is faithful).  The loop stops when cancelled, when the
page bound is reached (keeping the freshly returned token), or when the
provider returns no further token. -/
def discoverGo (catalog : List (List DItem)) (cancel : Nat → Bool) :
    Nat → Nat → Option Nat → DiscoAcc → DiscoAcc
  | 0, _, _, acc => acc
  | fuel + 1, iter, tok, acc =>
    if cancel iter then acc
    else
      let fetched := fetchPage catalog tok
      let acc1 := { countPage acc fetched.1 with
                    items := acc.items ++ fetched.1
                    pagesScanned := acc.pagesScanned + 1
                    nextToken := fetched.2 }
      if fuel == 0 then acc1
      else
        match fetched.2 with
        | none => acc1
        | some _ => discoverGo catalog cancel fuel (iter + 1) fetched.2 acc1

/-- The date-range post-pass (lines 410-426): applied only when useDateRange
and both bounds are truthy; an item without a creation timestamp is dropped;
otherwise the item is kept iff startDate ≤ itemDate ≤ endDate (both ends
inclusive). -/
def dateFilterPass (useDateRange : Bool) (s e : Option Int) (items : List DItem) :
    List DItem :=
  match useDateRange, s, e with
  | true, some sd, some ed =>
    items.filter (fun it =>
      match it.creationTime with
      | none => false
      | some t => decide (sd ≤ t ∧ t ≤ ed))
  | _, _, _ => items

/-- The options of a discovery call that this engine reads. -/
structure DiscoOptions where
  useDateRange : Bool
  startDate : Option Int
  endDate : Option Int
  discoveryLimit : Option Nat
  pageToken : Option Nat
  continueDiscovery : Bool
deriving Repr

/-- The discoveryResults record built at lines 450-476. -/
structure DiscoveryResults where
  items : List DItem
  totalItems : Nat
  photoCount : Nat
  videoCount : Nat
  filteredCount : Nat
  estimatedSizeBytes : Nat
  hasMore : Bool
  pagesScanned : Nat
  dateFiltered : Bool
deriving Repr, DecidableEq

/-- What getPhotos hands back: the updated this.discoveryResults, the returned
(filtered) item array, and the nextPageToken property attached to that array
at lines 478-482. -/
structure DiscoReturn where
  discoveryResults : Option DiscoveryResults
  items : List DItem
  nextPageToken : Option Nat
deriving Repr

/-- getPhotos of the alternate PhotosService (lines 286-490, loop body above).
maxPages is options.discoveryLimit || 5, so an absent or zero limit becomes 5.
After the loop the date post-pass runs over the accumulated list; a fresh call
replaces this.discoveryResults (prior), a continue call sums counters onto the
prior snapshot when one exists (lines 446-476); hasMore is !!nextPageToken. -/
def getPhotosAlt (catalog : List (List DItem)) (cancel : Nat → Bool)
    (opts : DiscoOptions) (prior : Option DiscoveryResults) : DiscoReturn :=
  let maxPages := match opts.discoveryLimit with
    | some n => if n == 0 then 5 else n
    | none => 5
  let acc := discoverGo catalog cancel maxPages 0 opts.pageToken
    ⟨[], 0, 0, 0, 0, none⟩
  let filtered := dateFilterPass opts.useDateRange opts.startDate opts.endDate acc.items
  let dateFiltered := opts.useDateRange && opts.startDate.isSome && opts.endDate.isSome
  let fresh : DiscoveryResults :=
    ⟨filtered, acc.items.length, acc.photoCount, acc.videoCount, filtered.length,
     acc.sizeEst, acc.nextToken.isSome, acc.pagesScanned, dateFiltered⟩
  let newResults : Option DiscoveryResults :=
    if !opts.continueDiscovery then some fresh
    else match prior with
      | some pr =>
        some ⟨pr.items ++ filtered, pr.totalItems + acc.items.length,
              pr.photoCount + acc.photoCount, pr.videoCount + acc.videoCount,
              pr.filteredCount + filtered.length,
              pr.estimatedSizeBytes + acc.sizeEst, acc.nextToken.isSome,
              pr.pagesScanned + acc.pagesScanned, dateFiltered⟩
      | none => prior
  ⟨newResults, filtered, acc.nextToken⟩

/-! ## generateFileName (src/unnamed/part_003 lines 587-610) -/

/-- The mediaMetadata subobject as generateFileName reads it; creationTime is
the raw string (none = property absent; an empty string is falsy too). -/
structure MMeta where
  creationTime : Option String
deriving Repr, DecidableEq

/-- A raw item as generateFileName receives it; every field may be absent. -/
structure RawItem where
  id : Option String
  filename : Option String
  mediaMetadata : Option MMeta
  mediaType : Option String
deriving Repr, DecidableEq

/-- The JavaScript error that escapes generateFileName when its catch block
itself faults. -/
inductive JsError where
  | typeError
deriving Repr, DecidableEq

/-- String.prototype.slice(-8): the last 8 characters. -/
def sliceLast8 (s : String) : String :=
  strTakeRight s 8

/-- generateFileName (part_003 lines 587-610).  item? is none for a null
item; dateParse models new Date(s).getTime() with none for NaN; nowMs models
Date.now().  The try block throws when item, mediaMetadata or creationTime is
missing, and also when path.basename or id.slice fault on an undefined value;
the catch block then builds a fallback from item.id, Date.now() and a
media-type extension - but dereferences item.mediaType, so a null item makes
the catch itself throw a TypeError that escapes to the caller. -/
def generateFileName (item? : Option RawItem) (dateParse : String → Option Int)
    (nowMs : Int) : Except JsError String :=
  let tryResult : Option String :=
    match item? with
    | none => none
    | some item =>
      match item.mediaMetadata with
      | none => none
      | some mm =>
        if !truthy mm.creationTime then none
        else
          let ext := extname (if truthy item.filename then item.filename.getD "" else "")
          let fnOrId : Option String :=
            if truthy item.filename then item.filename else item.id
          match fnOrId, item.id with
          | none, _ => none
          | _, none => none
          | some base0, some id =>
            let name := basenameExt base0 ext
            let ts := dateParse (mm.creationTime.getD "")
            let finalTs := ts.getD nowMs
            some (name ++ "_" ++ toString finalTs ++ "_" ++ sliceLast8 id ++ ext)
  match tryResult with
  | some s => .ok s
  | none =>
    match item? with
    | none => .error .typeError
    | some item =>
      let ext := if item.mediaType == some "video" then ".mp4" else ".jpg"
      .ok ((if truthy item.id then item.id.getD "" else "unknown")
        ++ "_" ++ toString nowMs ++ ext)

/-! ## Batch download scheduler of processDownloadQueue
(src/unnamed/part_003 lines 504-524).  Each worker of a batch runs:
if (activeDownloads >= maxConcurrentDownloads) await sleep(100);
activeDownloads++; await processItem(...); finally activeDownloads--.
The only await between the limit check and the increment is the sleep, so the
per-worker control points are: ready (before the check), sleeping (suspended
in the sleep), downloading (after the increment), done.  Crucially, a worker
that wakes from the sleep increments WITHOUT re-checking the limit. -/

/-- Control point of one batch worker. -/
inductive DlPhase where
  | ready
  | sleeping
  | downloading
  | done
deriving Repr, DecidableEq

/-- The shared counter this.activeDownloads plus each worker's control
point. -/
structure QState where
  active : Nat
  phases : List DlPhase
deriving Repr, DecidableEq

/-- One event-loop step of the batch scheduler.  checkPass: a ready worker
sees active < limit, increments and starts downloading (one synchronous
segment).  checkBlock: a ready worker sees active ≥ limit and suspends in
sleep(100).  wake: a sleeping worker resumes and increments without
re-checking.  finish: a download completes and decrements. -/
inductive QStep (limit : Nat) : QState → QState → Prop where
  | checkPass (s : QState) (i : Nat) (h : s.phases.get? i = some .ready)
      (hlt : s.active < limit) :
      QStep limit s ⟨s.active + 1, s.phases.set i .downloading⟩
  | checkBlock (s : QState) (i : Nat) (h : s.phases.get? i = some .ready)
      (hge : limit ≤ s.active) :
      QStep limit s ⟨s.active, s.phases.set i .sleeping⟩
  | wake (s : QState) (i : Nat) (h : s.phases.get? i = some .sleeping) :
      QStep limit s ⟨s.active + 1, s.phases.set i .downloading⟩
  | finish (s : QState) (i : Nat) (h : s.phases.get? i = some .downloading) :
      QStep limit s ⟨s.active - 1, s.phases.set i .done⟩

/-- Reachability under the batch scheduler. -/
def QReach (limit : Nat) : QState → QState → Prop :=
  Relation.ReflTransGen (QStep limit)

/-! ## Sync run orchestrator (src/unnamed/part_006 startSync, lines 134-224) -/

/-- An entry of the prepared download queue (lines 106-114). -/
structure P6Item where
  id : String
  filename : String
deriving Repr, DecidableEq

/-- The run state the loop manipulates: the remaining validQueue, the ids in
the activeDownloads Map, and processedItems. -/
structure P6State where
  queue : List P6Item
  active : List String
  processed : Nat
deriving Repr, DecidableEq

/-- The externally set pause/cancel flags of websocketService.currentSync as
observed at one poll point. -/
structure P6Flags where
  paused : Bool
  cancelled : Bool
deriving Repr, DecidableEq

/-- The synchronous inner while of startSync (lines 146-180): starts new
downloads while the queue is nonempty, the activeDownloads Map is below the
concurrency limit, and the run is neither paused nor cancelled; an item whose
target file already exists is counted processed without occupying a slot.
No await occurs inside, so the flags are fixed for the whole segment. -/
def startNew (limit : Nat) (fsEx : String → Bool) (paused cancelled : Bool) :
    List P6Item → List String → Nat → List String × List P6Item × Nat
  | [], active, processed => (active, [], processed)
  | item :: rest, active, processed =>
    if active.length < limit && !paused && !cancelled then
      if !fsEx item.filename then
        startNew limit fsEx paused cancelled rest (active ++ [item.id]) processed
      else
        startNew limit fsEx paused cancelled rest active (processed + 1)
    else (active, item :: rest, processed)

/-- The outer scheduling loop of startSync (lines 139-186).  env gives the
flags observed at the top of iteration i (they change only across awaits).
Each non-paused iteration starts new downloads and then awaits Promise.race,
after which one active download has completed (its then-handler counted it
processed and its finally-handler removed it from the Map).  A paused
iteration sleeps one second and re-polls.  Returns the state at loop exit and
the index of the next flag read; none models fuel running out before the loop
exits. -/
def runLoop (limit : Nat) (fsEx : String → Bool) (env : Nat → P6Flags) :
    Nat → Nat → P6State → Option (P6State × Nat)
  | 0, _, _ => none
  | fuel + 1, i, st =>
    let f := env i
    if (!st.queue.isEmpty || !st.active.isEmpty) && !f.cancelled then
      if f.paused then runLoop limit fsEx env fuel (i + 1) st
      else
        let started := startNew limit fsEx f.paused f.cancelled st.queue st.active st.processed
        match started.1 with
        | [] => runLoop limit fsEx env fuel (i + 1) ⟨started.2.1, [], started.2.2⟩
        | _ :: restAct =>
          runLoop limit fsEx env fuel (i + 1) ⟨started.2.1, restAct, started.2.2 + 1⟩
    else some (st, i + 1)

/-- The overall outcome of a startSync run (lines 188-214). -/
structure P6Result where
  finalQueue : List P6Item
  finalActive : List String
  processed : Nat
  cleanupRan : Bool
  finalStatus : String
  envIdx : Nat
deriving Repr, DecidableEq

/-- The completion tail of startSync (lines 188-214): after the loop exits,
remaining in-flight downloads are awaited to completion, then
cleanupRemovedFiles runs iff the run is not cancelled AND the
settings.cleanupRemovedFiles policy is on (lines 193-196), and the final
status is cancelled / paused / completed from a fresh read of the flags. -/
def startSyncOutcome (limit : Nat) (fsEx : String → Bool) (env : Nat → P6Flags)
    (cleanupEnabled : Bool) (fuel : Nat) (queue : List P6Item) :
    Option P6Result :=
  match runLoop limit fsEx env fuel 0 ⟨queue, [], 0⟩ with
  | none => none
  | some (st, i) =>
    let f := env i
    let ranCleanup := !f.cancelled && cleanupEnabled
    let status :=
      if f.cancelled then "cancelled"
      else if f.paused then "paused"
      else "completed"
    some ⟨st.queue, [], st.processed + st.active.length, ranCleanup, status, i⟩

/-! ## Run-control routes (src/unnamed/part_002 lines 120-194) and service
guards (src/server/services/sync.service.js lines 419-449) -/

/-- The status field of websocketService.currentSync. -/
inductive SyncStatus where
  | idle
  | running
  | paused
  | cancelled
  | completed
  | error
deriving Repr, DecidableEq

/-- The run-state portion of websocketService.currentSync that the routes
read and merge into. -/
structure CurrentSync where
  status : SyncStatus
  isPaused : Bool
  isCancelled : Bool
  processedItems : Nat
  totalItems : Nat
deriving Repr, DecidableEq

/-- An HTTP reply, reduced to its status code. -/
structure RouteReply where
  httpStatus : Nat
deriving Repr, DecidableEq

/-- POST /sync (part_002 lines 120-140): a run whose status is running or
paused is rejected with 400 before anything else happens; otherwise a failed
authentication gives 401; otherwise startSync is launched (the Bool records
whether it was).  The handler itself never touches currentSync. -/
def postSync (cs : CurrentSync) (authOk : Bool) :
    RouteReply × CurrentSync × Bool :=
  if cs.status == .running || cs.status == .paused then (⟨400⟩, cs, false)
  else if !authOk then (⟨401⟩, cs, false)
  else (⟨200⟩, cs, true)

/-- POST /sync/pause (part_002 lines 142-158): only a running run can be
paused; otherwise 400 and the state is untouched. -/
def postPause (cs : CurrentSync) : RouteReply × CurrentSync :=
  if cs.status == .running then
    (⟨200⟩, { cs with isPaused := true, status := .paused })
  else (⟨400⟩, cs)

/-- POST /sync/resume (part_002 lines 160-176): only a paused run can be
resumed; otherwise 400 and the state is untouched. -/
def postResume (cs : CurrentSync) : RouteReply × CurrentSync :=
  if cs.status == .paused then
    (⟨200⟩, { cs with isPaused := false, status := .running })
  else (⟨400⟩, cs)

/-- syncService.pauseSync (sync.service.js lines 419-427): throws when no
sync is in progress. -/
def pauseSyncSvc (syncInProgress : Bool) : Except String Unit :=
  if syncInProgress then .ok () else .error "No sync in progress"

/-- syncService.resumeSync (sync.service.js lines 429-437): throws when no
sync is in progress. -/
def resumeSyncSvc (syncInProgress : Bool) : Except String Unit :=
  if syncInProgress then .ok () else .error "No sync in progress"

/-! ## Concrete inputs used by witnesses and counterexamples -/

/-- A three-page catalog with one item per page, for the pagination witness. -/
def exC2Catalog : List (List DItem) :=
  [[⟨"a", true, false, none⟩], [⟨"b", true, false, none⟩],
   [⟨"c", false, true, none⟩]]

/-- Items on and off the date-range boundary, for the date-filter witness. -/
def exC7Items : List DItem :=
  [⟨"x", true, false, some 10⟩, ⟨"y", true, false, some 21⟩,
   ⟨"z", true, false, none⟩]

/-- 251 calls arriving in the last millisecond of the first window followed by
249 arriving right after it rolls over. -/
def exC6Arrivals : List Nat :=
  List.replicate 251 59999 ++ List.replicate 249 60000

/-! # Theorems -/

/-! ## Shared helper lemmas -/

/-- Deleting a key removes its binding. -/
theorem assocGet_assocDelete (m : List (String × α)) (k : String) :
    assocGet (assocDelete m k) k = none := by
  have hfind : (assocDelete m k).find? (fun p => p.1 == k) = none := by
    rw [List.find?_eq_none]
    intro p hp
    have h := List.of_mem_filter hp
    simp at h
    simp [h]
  simp [assocGet, hfind]

/-! ## C9: sync cache cleanup -/

/-- C9: whenever SyncCacheService.cleanup runs, it removes exactly the entries
whose lastSync timestamp is more than maxAge (30 days by default) in the past,
keeps every other entry unchanged (the pruned cache is a sublist of the old
one), saves the cache iff at least one entry was removed, and its expiry test
reads nothing but lastSync - so even a successfully synced entry is discarded
once it is over 30 days old. -/
theorem C9_cache_cleanup (now : Int) (cache : List (String × CacheEntry)) :
    (cacheCleanup now thirtyDaysMs cache).1 =
      cache.filter (fun p => !entryExpired now thirtyDaysMs p.2) ∧
    List.Sublist (cacheCleanup now thirtyDaysMs cache).1 cache ∧
    (∀ p : String × CacheEntry, p ∈ cache →
      (p ∈ (cacheCleanup now thirtyDaysMs cache).1 ↔
        ¬ ∃ t, p.2.lastSync = some t ∧ now - t > thirtyDaysMs)) ∧
    (cacheCleanup now thirtyDaysMs cache).2 =
      cache.any (fun p => entryExpired now thirtyDaysMs p.2) ∧
    (∀ e₁ e₂ : CacheEntry, e₁.lastSync = e₂.lastSync →
      entryExpired now thirtyDaysMs e₁ = entryExpired now thirtyDaysMs e₂) := by
  refine ⟨rfl, List.filter_sublist _, ?_, rfl, ?_⟩
  · intro p hp
    have hexp : entryExpired now thirtyDaysMs p.2 = true ↔
        ∃ t, p.2.lastSync = some t ∧ now - t > thirtyDaysMs := by
      unfold entryExpired
      cases h : p.2.lastSync with
      | none => simp [h]
      | some t => simp [h]
    constructor
    · intro hmem hcontra
      have := (List.mem_filter.mp hmem).2
      rw [hexp.mpr hcontra] at this
      simp at this
    · intro hno
      refine List.mem_filter.mpr ⟨hp, ?_⟩
      cases hb : entryExpired now thirtyDaysMs p.2 with
      | false => simp
      | true => exact absurd (hexp.mp hb) hno
  · intro e₁ e₂ h
    unfold entryExpired
    rw [h]

/-- Witness for C9 at a concrete cache: the 31-day-old entry is gone, the
29-day-old one survives, and the prune is persisted. -/
theorem C9_cache_cleanup_witness :
    ("old", (⟨"/p/a.jpg", some 0, "synced item"⟩ : CacheEntry)) ∉
      (cacheCleanup (31 * 24 * 60 * 60 * 1000) thirtyDaysMs
        [("old", ⟨"/p/a.jpg", some 0, "synced item"⟩),
         ("new", ⟨"/p/b.jpg", some (2 * 24 * 60 * 60 * 1000), ""⟩)]).1 ∧
    ("new", (⟨"/p/b.jpg", some (2 * 24 * 60 * 60 * 1000), ""⟩ : CacheEntry)) ∈
      (cacheCleanup (31 * 24 * 60 * 60 * 1000) thirtyDaysMs
        [("old", ⟨"/p/a.jpg", some 0, "synced item"⟩),
         ("new", ⟨"/p/b.jpg", some (2 * 24 * 60 * 60 * 1000), ""⟩)]).1 ∧
    (cacheCleanup (31 * 24 * 60 * 60 * 1000) thirtyDaysMs
        [("old", ⟨"/p/a.jpg", some 0, "synced item"⟩),
         ("new", ⟨"/p/b.jpg", some (2 * 24 * 60 * 60 * 1000), ""⟩)]).2 = true := by
  have h := C9_cache_cleanup (31 * 24 * 60 * 60 * 1000)
    [("old", ⟨"/p/a.jpg", some 0, "synced item"⟩),
     ("new", ⟨"/p/b.jpg", some (2 * 24 * 60 * 60 * 1000), ""⟩)]
  refine ⟨?_, ?_, ?_⟩
  · intro hmem
    have := (h.2.2.1 _ (by simp)).mp hmem
    exact this ⟨0, rfl, by norm_num [thirtyDaysMs]⟩
  · exact (h.2.2.1 _ (by simp)).mpr
      (by rintro ⟨t, ht, hgt⟩; cases ht; norm_num [thirtyDaysMs] at hgt)
  · rw [h.2.2.2.1]; decide

/-! ## C1: the synced check and stale-entry handling -/

/-- C1 counterexample: the claim says the synced check is true only when the
recorded local path still exists on disk, and that a vanished file causes only
the path reference to be cleared.  But isItemSynced answers true for an entry
whose recorded path is on no disk at all, and findDuplicateFile deletes the
whole syncState entry when the recorded path has vanished. -/
theorem C1_counterexample :
    isItemSynced [("a", ⟨"/sync/x.jpg", some 0, ""⟩)] "a" = true ∧
    diskHas [] "/sync/x.jpg" = false ∧
    (findDuplicateFile ⟨"a", "x.jpg", some 5⟩ "/sync"
        [("a", ⟨true, "/sync/x.jpg"⟩)] [] []).2 = [] := by
  refine ⟨rfl, rfl, ?_⟩
  decide

/-- C1 amended: isItemSynced is a bare existence check on the cache Map (no
synced flag, no disk check); the lazy disk re-verification lives in
downloadItem, which skips only when the entry exists AND its recorded
localPath is still on disk; and findDuplicateFile treats a synced entry whose
path has vanished as not-synced by deleting the WHOLE entry (not just its
path reference) before falling back to the directory scan. -/
theorem C1_amended_ledger_checks :
    (∀ (cache : List (String × CacheEntry)) (id : String),
      isItemSynced cache id = (cacheGet cache id).isSome) ∧
    (∀ (cache : List (String × CacheEntry)) (disk : List String) (id : String),
      downloadItemSkips cache disk id = true →
      ∃ e, cacheGet cache id = some e ∧ diskHas disk e.localPath = true) ∧
    (∀ (item : PhotoItem) (syncDir : String)
        (st : List (String × PSyncEntry)) (disk dirFiles : List String)
        (e : PSyncEntry),
      assocGet st item.id = some e → e.synced = true →
      diskHas disk e.path = false →
      (findDuplicateFile item syncDir st disk dirFiles).2 =
          assocDelete st item.id ∧
      assocGet (findDuplicateFile item syncDir st disk dirFiles).2 item.id
          = none) := by
  refine ⟨fun _ _ => rfl, ?_, ?_⟩
  · intro cache disk id h
    unfold downloadItemSkips at h
    cases hg : cacheGet cache id with
    | none => rw [hg] at h; exact absurd h (by simp)
    | some e => rw [hg] at h; exact ⟨e, rfl, h⟩
  · intro item syncDir st disk dirFiles e hget hsync hdisk
    unfold findDuplicateFile
    rw [hget]
    simp [hsync, hdisk, assocGet_assocDelete]

/-- Witness for C1 amended at a concrete stale entry. -/
theorem C1_amended_witness :
    isItemSynced [("b", ⟨"/sync/y.jpg", some 0, ""⟩)] "b" =
      (cacheGet [("b", ⟨"/sync/y.jpg", some 0, ""⟩)] "b").isSome ∧
    assocGet (findDuplicateFile ⟨"b", "y.jpg", some 7⟩ "/sync"
        [("b", ⟨true, "/sync/y.jpg"⟩)] [] ["z.png"]).2 "b" = none := by
  refine ⟨C1_amended_ledger_checks.1 _ "b", ?_⟩
  exact (C1_amended_ledger_checks.2.2 ⟨"b", "y.jpg", some 7⟩ "/sync"
    [("b", ⟨true, "/sync/y.jpg"⟩)] [] ["z.png"] ⟨true, "/sync/y.jpg"⟩
    rfl rfl (by decide)).2

/-! ## C5: 429 handling of the rate limiter -/

/-- C5: a first call failing with status 429 makes the limiter sleep for the
parsed retry-after (in seconds, 60 when the header is absent), zero its
request counter, and invoke the wrapped call exactly once more; the retried
call's outcome - success or ANY error, 429 included - is handed back to the
caller unchanged, with no further retry. -/
theorem C5_429_retry_once (st : LimSt) (now : Nat) (ra : Option Nat)
    (second : CallRes) :
    (rateLimitedRequest st now (.err (some 429) ra) second).sleptMs =
      [effRetryAfter ra * 1000] ∧
    effRetryAfter none = 60 ∧
    (rateLimitedRequest st now (.err (some 429) ra) second).calls = 2 ∧
    (rateLimitedRequest st now (.err (some 429) ra) second).finalSt.requestsThisMinute = 0 ∧
    (rateLimitedRequest st now (.err (some 429) ra) second).result =
      (match second with
       | .ok v => .ok v
       | .err s2 r2 => .error (s2, r2)) := by
  cases second <;> simp [rateLimitedRequest, effRetryAfter]

/-- Witness for C5: header absent (60 s default) and a failing retry whose
error reaches the caller unchanged after exactly two calls. -/
theorem C5_429_retry_once_witness :
    (rateLimitedRequest ⟨0, 0⟩ 5 (.err (some 429) none)
        (.err (some 500) none)).sleptMs = [60000] ∧
    (rateLimitedRequest ⟨0, 0⟩ 5 (.err (some 429) none)
        (.err (some 500) none)).calls = 2 ∧
    (rateLimitedRequest ⟨0, 0⟩ 5 (.err (some 429) none)
        (.err (some 500) none)).result = .error (some 500, none) := by
  have h := C5_429_retry_once ⟨0, 0⟩ 5 none (.err (some 500) none)
  exact ⟨by rw [h.1]; rfl, h.2.2.1, h.2.2.2.2⟩

/-! ## C8: run-state guards -/

/-- C8: requesting a sync start while a run is active (running or paused) is
rejected with 400 without launching startSync and without touching the run
state; pause when not running and resume when not paused are rejected with
400 and leave the state untouched; the service-level guards throw when no
sync is in progress. -/
theorem C8_state_guards :
    (∀ (cs : CurrentSync) (authOk : Bool),
      cs.status = .running ∨ cs.status = .paused →
      (postSync cs authOk).1.httpStatus = 400 ∧
      (postSync cs authOk).2.1 = cs ∧ (postSync cs authOk).2.2 = false) ∧
    (∀ cs : CurrentSync, cs.status ≠ .running →
      (postPause cs).1.httpStatus = 400 ∧ (postPause cs).2 = cs) ∧
    (∀ cs : CurrentSync, cs.status ≠ .paused →
      (postResume cs).1.httpStatus = 400 ∧ (postResume cs).2 = cs) ∧
    pauseSyncSvc false = .error "No sync in progress" ∧
    resumeSyncSvc false = .error "No sync in progress" := by
  refine ⟨?_, ?_, ?_, rfl, rfl⟩
  · intro cs authOk h
    rcases h with h | h <;> simp [postSync, h]
  · intro cs h
    simp [postPause, h]
  · intro cs h
    simp [postResume, h]

/-- Witness for C8: a running run rejects a second start and a resume, an
idle state rejects a pause, all leaving the state exactly as it was. -/
theorem C8_state_guards_witness :
    (postSync ⟨.running, false, false, 3, 10⟩ true).1.httpStatus = 400 ∧
    (postSync ⟨.running, false, false, 3, 10⟩ true).2.1 =
      ⟨.running, false, false, 3, 10⟩ ∧
    (postSync ⟨.running, false, false, 3, 10⟩ true).2.2 = false ∧
    (postPause ⟨.idle, false, false, 0, 0⟩).2 = ⟨.idle, false, false, 0, 0⟩ ∧
    (postResume ⟨.running, false, false, 3, 10⟩).2 =
      ⟨.running, false, false, 3, 10⟩ := by
  have h1 := C8_state_guards.1 ⟨.running, false, false, 3, 10⟩ true (Or.inl rfl)
  have h2 := C8_state_guards.2.1 ⟨.idle, false, false, 0, 0⟩ (by decide)
  have h3 := C8_state_guards.2.2.1 ⟨.running, false, false, 3, 10⟩ (by decide)
  exact ⟨h1.1, h1.2.1, h1.2.2, h2.2, h3.2⟩

/-! ## C3: the concurrency bound of processDownloadQueue -/

/-- C3: with maxConcurrentDownloads = 1 and a batch of two items, the batch
scheduler of processDownloadQueue reaches a state with TWO simultaneously
active downloads: the first worker passes the check and starts its download;
the second observes the limit and suspends in its single sleep(100); when the
sleep elapses while the first download is still running, the second worker
increments activeDownloads without re-checking the limit.  So the bound is
exceeded transiently, contradicting the claimed invariant. -/
theorem C3_bound_exceeded :
    QReach 1 ⟨0, [.ready, .ready]⟩ ⟨2, [.downloading, .downloading]⟩ ∧
    1 < 2 := by
  constructor
  · have h1 : QStep 1 ⟨0, [.ready, .ready]⟩ ⟨1, [.downloading, .ready]⟩ :=
      QStep.checkPass ⟨0, [.ready, .ready]⟩ 0 rfl (by decide)
    have h2 : QStep 1 ⟨1, [.downloading, .ready]⟩
        ⟨1, [.downloading, .sleeping]⟩ :=
      QStep.checkBlock ⟨1, [.downloading, .ready]⟩ 1 rfl (by decide)
    have h3 : QStep 1 ⟨1, [.downloading, .sleeping]⟩
        ⟨2, [.downloading, .downloading]⟩ :=
      QStep.wake ⟨1, [.downloading, .sleeping]⟩ 1 rfl
    exact .head h1 (.head h2 (.single h3))
  · decide

/-! ## C6: the rolling-minute bound of the rate limiter -/

set_option maxRecDepth 20000 in
/-- C6 counterexample: the window is anchored at the last counter reset, not
rolling.  250 calls issued in the last millisecond of one window followed by
the suspended 251st call and 249 more right after the rollover put 500 issued
requests inside a 2-millisecond span - far more than 250 within one rolling
minute, refuting the claimed rolling-minute bound. -/
theorem C6_counterexample :
    ((limiterRun ⟨0, 0⟩ exC6Arrivals).1.countP
      (fun t => decide (59999 ≤ t ∧ t ≤ 60000))) = 500 ∧
    60000 - 59999 ≤ minuteMs ∧
    rateLimitCeiling < 500 := by
  refine ⟨by rfl, by decide, by decide⟩

/-- C6 amended: the limiter enforces its ceiling per anchored window: the
counter after any admission never exceeds 250, this bound is preserved along
any sequence of calls, and a call arriving with the counter at the ceiling
before the window has elapsed is suspended until exactly windowStart + 60 s,
where the counter resets (to 1, counting the suspended call) and the window
re-anchors.  The bound is per anchored window only; adjacent windows may
place up to 2 x 250 issued calls inside one 60 s span. -/
theorem C6_amended_window_ceiling :
    (∀ (st : LimSt) (now : Nat),
      ((limiterAdmit st now).2).requestsThisMinute ≤ rateLimitCeiling) ∧
    (∀ (st : LimSt) (ts : List Nat),
      st.requestsThisMinute ≤ rateLimitCeiling →
      ((limiterRun st ts).2).requestsThisMinute ≤ rateLimitCeiling) ∧
    (∀ (st : LimSt) (now : Nat),
      st.requestsThisMinute = rateLimitCeiling →
      st.lastRequestTime ≤ now →
      now - st.lastRequestTime < minuteMs →
      (limiterAdmit st now).1 = st.lastRequestTime + minuteMs ∧
      ((limiterAdmit st now).2).requestsThisMinute = 1 ∧
      ((limiterAdmit st now).2).lastRequestTime =
        st.lastRequestTime + minuteMs) := by
  have hcounter : ∀ (st : LimSt) (now : Nat),
      ((limiterAdmit st now).2).requestsThisMinute ≤ rateLimitCeiling := by
    intro st now
    simp only [limiterAdmit, rateLimitCeiling]
    split
    · split <;> simp_all
    · split <;> simp_all
      omega
  refine ⟨hcounter, ?_, ?_⟩
  · intro st ts hst
    induction ts generalizing st with
    | nil => exact hst
    | cons t rest ih =>
      simpa [limiterRun] using ih (limiterAdmit st t).2 (hcounter st t)
  · intro st now hceil hle hlt
    simp only [limiterAdmit]
    rw [if_neg (by omega : ¬ (now - st.lastRequestTime ≥ minuteMs))]
    rw [if_pos (le_of_eq hceil.symm : rateLimitCeiling ≤ st.requestsThisMinute)]
    refine ⟨by omega, rfl, by simp; omega⟩

/-- Witness for C6 amended: the 251st call of a full window at t = 59999 is
issued at exactly 60000 with the counter reset, and a short run stays at or
under the ceiling. -/
theorem C6_amended_witness :
    (limiterAdmit ⟨250, 0⟩ 59999).1 = 60000 ∧
    ((limiterAdmit ⟨250, 0⟩ 59999).2).requestsThisMinute = 1 ∧
    ((limiterRun ⟨0, 0⟩ [1, 2, 3]).2).requestsThisMinute ≤ 250 := by
  have h3 := C6_amended_window_ceiling.2.2 ⟨250, 0⟩ 59999 rfl
    (by decide) (by decide)
  have h2 := C6_amended_window_ceiling.2.1 ⟨0, 0⟩ [1, 2, 3] (by decide)
  exact ⟨h3.1, h3.2.1, h2⟩

/-! ## C10: totality of generateFileName -/

/-- C10 counterexample: for a null item the try block throws as designed, but
the catch block dereferences item.mediaType on the null value, so the
function propagates a TypeError to the caller instead of returning the
claimed fallback name. -/
theorem C10_counterexample :
    generateFileName none (fun _ => none) 1700000000000 =
      .error .typeError := by
  rfl

/-- C10 amended: generateFileName is total over every NON-null item: with
mediaMetadata.creationTime present (and a present id and truthy filename) it
returns basename_timestamp_last8(ext), substituting Date.now() when the
timestamp parses as NaN; for any item missing the required metadata it
returns the fallback id_now with a media-type extension.  Only a null item
makes it throw (the TypeError of the counterexample). -/
theorem C10_amended_total_on_objects (dateParse : String → Option Int)
    (nowMs : Int) :
    (∀ item : RawItem,
      ∃ s, generateFileName (some item) dateParse nowMs = .ok s) ∧
    (∀ (id fn ct : String) (mt : Option String),
      fn ≠ "" → ct ≠ "" →
      generateFileName (some ⟨some id, some fn, some ⟨some ct⟩, mt⟩)
          dateParse nowMs =
        .ok (basenameExt fn (extname fn) ++ "_" ++
          toString ((dateParse ct).getD nowMs) ++ "_" ++
          sliceLast8 id ++ extname fn)) ∧
    (∀ (id : Option String) (fn : Option String) (mt : Option String),
      generateFileName (some ⟨id, fn, none, mt⟩) dateParse nowMs =
        .ok ((if truthy id then id.getD "" else "unknown") ++ "_" ++
          toString nowMs ++
          (if mt == some "video" then ".mp4" else ".jpg"))) := by
  refine ⟨?_, ?_, ?_⟩
  · intro item
    unfold generateFileName
    dsimp only
    split
    · exact ⟨_, rfl⟩
    · exact ⟨_, rfl⟩
  · intro id fn ct mt hfn hct
    unfold generateFileName
    simp [truthy, hfn, hct]
  · intro id fn mt
    rfl

/-- Witness for C10 amended: a fully-specified item and a metadata-less item
both produce names. -/
theorem C10_amended_witness :
    generateFileName (some ⟨some "ABCDEFGH123", some "photo.jpg",
        some ⟨some "2020-01-01T00:00:00Z"⟩, none⟩)
        (fun _ => some 1577836800000) 42 =
      .ok "photo_1577836800000_DEFGH123.jpg" ∧
    generateFileName (some ⟨some "itemid", none, none, some "video"⟩)
        (fun _ => some 1577836800000) 42 =
      .ok "itemid_42.mp4" := by
  have h := C10_amended_total_on_objects (fun _ => some 1577836800000) 42
  constructor
  · rw [h.2.1 "ABCDEFGH123" "photo.jpg" "2020-01-01T00:00:00Z" none
      (by decide) (by decide)]
    rfl
  · rw [h.2.2 (some "itemid") none (some "video")]
    rfl

/-! ## C2: pagination of the discovery loop -/

/-- A missing initial page token makes the loop start at page 0, exactly like
an explicit token for page 0. -/
theorem discoverGo_none_eq_some_zero (catalog : List (List DItem))
    (cancel : Nat → Bool) (fuel iter : Nat) (acc : DiscoAcc) :
    discoverGo catalog cancel fuel iter none acc =
      discoverGo catalog cancel fuel iter (some 0) acc := by
  cases fuel with
  | zero => rfl
  | succ f => rfl

/-- One unfolding step of the discovery loop, stated so that the recursion is
expanded exactly once. -/
theorem discoverGo_succ (catalog : List (List DItem)) (cancel : Nat → Bool)
    (fuel iter : Nat) (tok : Option Nat) (acc : DiscoAcc) :
    discoverGo catalog cancel (fuel + 1) iter tok acc =
      (if cancel iter then acc
       else
        let fetched := fetchPage catalog tok
        let acc1 := { countPage acc fetched.1 with
                      items := acc.items ++ fetched.1
                      pagesScanned := acc.pagesScanned + 1
                      nextToken := fetched.2 }
        if fuel == 0 then acc1
        else
          match fetched.2 with
          | none => acc1
          | some _ => discoverGo catalog cancel fuel (iter + 1) fetched.2 acc1) :=
  rfl

/-- Behaviour of the discovery loop without cancellation, starting at page i
of a catalog of P pages with fuel ≥ 1 page fetches allowed: it fetches
min fuel (P - i) pages, appends their items in order, counts the pages, and
leaves the token of the first unfetched page - or none when the catalog is
exhausted. -/
theorem discoverGo_noCancel (catalog : List (List DItem)) :
    ∀ (fuel i iter : Nat) (acc : DiscoAcc), 1 ≤ fuel → i < catalog.length →
      (discoverGo catalog (fun _ => false) fuel iter (some i) acc).items =
        acc.items ++
          ((catalog.drop i).take (min fuel (catalog.length - i))).flatten ∧
      (discoverGo catalog (fun _ => false) fuel iter (some i) acc).nextToken =
        (if i + min fuel (catalog.length - i) < catalog.length
         then some (i + min fuel (catalog.length - i)) else none) ∧
      (discoverGo catalog (fun _ => false) fuel iter (some i) acc).pagesScanned =
        acc.pagesScanned + min fuel (catalog.length - i) := by
  intro fuel
  induction fuel with
  | zero => intro i iter acc h hi; exact absurd h (by omega)
  | succ f ih =>
    intro i iter acc _ hi
    have hcons : catalog.drop i = catalog[i] :: catalog.drop (i + 1) :=
      List.drop_eq_getElem_cons hi
    have hgetD : catalog.getD i [] = catalog[i] :=
      List.getD_eq_getElem catalog [] hi
    have htake : ∀ (x : List DItem) (xs : List (List DItem)),
        List.take 1 (x :: xs) = [x] := fun _ _ => rfl
    rw [discoverGo_succ]
    cases f with
    | zero =>
      have hmin : min 1 (catalog.length - i) = 1 := by omega
      simp only [fetchPage, Option.getD_some, Bool.false_eq_true, if_false,
        beq_self_eq_true, if_true]
      refine ⟨?_, ?_, ?_⟩
      · rw [hgetD, hmin, hcons, htake, List.flatten_cons, List.flatten_nil,
          List.append_nil]
      · rw [hmin]
      · rw [hmin]
    | succ f2 =>
      have hne : ((f2 + 1 : Nat) == 0) = false := by simp
      by_cases h2 : i + 1 < catalog.length
      · have hmm : min (f2 + 1 + 1) (catalog.length - i) =
            min (f2 + 1) (catalog.length - (i + 1)) + 1 := by omega
        have harith : i + min (f2 + 1 + 1) (catalog.length - i) =
            (i + 1) + min (f2 + 1) (catalog.length - (i + 1)) := by omega
        simp only [fetchPage, Option.getD_some, Bool.false_eq_true, if_false,
          hne]
        rw [if_pos h2]
        dsimp only
        refine ⟨?_, ?_, ?_⟩
        · rw [(ih (i + 1) (iter + 1) _ (by omega) h2).1]
          dsimp only
          rw [hgetD, hmm, hcons, List.take_succ_cons, List.flatten_cons,
            List.append_assoc]
        · rw [(ih (i + 1) (iter + 1) _ (by omega) h2).2.1, harith]
        · rw [(ih (i + 1) (iter + 1) _ (by omega) h2).2.2]
          dsimp only
          omega
      · have hmin : min (f2 + 1 + 1) (catalog.length - i) = 1 := by omega
        simp only [fetchPage, Option.getD_some, Bool.false_eq_true, if_false,
          hne]
        rw [if_neg h2]
        dsimp only
        refine ⟨?_, ?_, ?_⟩
        · dsimp only
          rw [hgetD, hmin, hcons, htake, List.flatten_cons, List.flatten_nil,
            List.append_nil]
        · dsimp only
          rw [hmin, if_neg (by omega : ¬ i + 1 < catalog.length)]
        · dsimp only
          rw [hmin]

/-- The date post-pass is the identity when useDateRange is off. -/
theorem dateFilterPass_off (s e : Option Int) (items : List DItem) :
    dateFilterPass false s e items = items := rfl

/-- Shape of a fresh, uncancelled, unfiltered getPhotos call with a nonzero
discoveryLimit: the loop accumulator determines every field. -/
theorem getPhotosAlt_fresh (catalog : List (List DItem)) (mp : Nat)
    (h0 : (mp == 0) = false) :
    getPhotosAlt catalog (fun _ => false)
        ⟨false, none, none, some mp, none, false⟩ none =
      ⟨some ⟨(discoverGo catalog (fun _ => false) mp 0 none
                ⟨[], 0, 0, 0, 0, none⟩).items,
             (discoverGo catalog (fun _ => false) mp 0 none
                ⟨[], 0, 0, 0, 0, none⟩).items.length,
             (discoverGo catalog (fun _ => false) mp 0 none
                ⟨[], 0, 0, 0, 0, none⟩).photoCount,
             (discoverGo catalog (fun _ => false) mp 0 none
                ⟨[], 0, 0, 0, 0, none⟩).videoCount,
             (discoverGo catalog (fun _ => false) mp 0 none
                ⟨[], 0, 0, 0, 0, none⟩).items.length,
             (discoverGo catalog (fun _ => false) mp 0 none
                ⟨[], 0, 0, 0, 0, none⟩).sizeEst,
             (discoverGo catalog (fun _ => false) mp 0 none
                ⟨[], 0, 0, 0, 0, none⟩).nextToken.isSome,
             (discoverGo catalog (fun _ => false) mp 0 none
                ⟨[], 0, 0, 0, 0, none⟩).pagesScanned,
             false⟩,
       (discoverGo catalog (fun _ => false) mp 0 none
          ⟨[], 0, 0, 0, 0, none⟩).items,
       (discoverGo catalog (fun _ => false) mp 0 none
          ⟨[], 0, 0, 0, 0, none⟩).nextToken⟩ := by
  simp only [getPhotosAlt, h0, Bool.false_eq_true, if_false,
    dateFilterPass_off, Bool.false_and, Bool.not_false, if_true]

/-- C2: for a catalog of N items over P ≥ 1 pages and an effective page bound
maxPages ≥ 1, a fresh uncancelled discovery with maxPages ≥ P accumulates all
N items and reports hasMore = false; with maxPages < P it accumulates exactly
the first maxPages pages and reports hasMore = true, and the returned array
carries the token of page maxPages - a valid continuation point strictly
inside the catalog. -/
theorem C2_pagination (catalog : List (List DItem)) (maxPages : Nat)
    (hcat : catalog ≠ []) (hmp : 1 ≤ maxPages) :
    (catalog.length ≤ maxPages →
      ∃ res, (getPhotosAlt catalog (fun _ => false)
          ⟨false, none, none, some maxPages, none, false⟩ none).discoveryResults
          = some res ∧
        res.items = catalog.flatten ∧
        res.totalItems = catalog.flatten.length ∧
        res.hasMore = false) ∧
    (maxPages < catalog.length →
      ∃ res, (getPhotosAlt catalog (fun _ => false)
          ⟨false, none, none, some maxPages, none, false⟩ none).discoveryResults
          = some res ∧
        res.items = (catalog.take maxPages).flatten ∧
        res.hasMore = true ∧
        (getPhotosAlt catalog (fun _ => false)
          ⟨false, none, none, some maxPages, none, false⟩ none).nextPageToken
          = some maxPages) := by
  have hlen : 0 < catalog.length := List.length_pos.mpr hcat
  have h0 : (maxPages == 0) = false := by
    simp only [beq_eq_false_iff_ne, ne_eq]
    omega
  have hgo := discoverGo_noCancel catalog maxPages 0 0 ⟨[], 0, 0, 0, 0, none⟩
    hmp hlen
  rw [← discoverGo_none_eq_some_zero] at hgo
  rw [getPhotosAlt_fresh catalog maxPages h0]
  constructor
  · intro hge
    have hmin : min maxPages (catalog.length - 0) = catalog.length := by omega
    rw [hmin] at hgo
    refine ⟨_, rfl, ?_, ?_, ?_⟩
    · rw [hgo.1]
      simp
    · rw [hgo.1]
      simp
    · rw [hgo.2.1]
      simp
  · intro hltP
    have hmin : min maxPages (catalog.length - 0) = maxPages := by omega
    rw [hmin] at hgo
    have htok : (discoverGo catalog (fun _ => false) maxPages 0 none
        ⟨[], 0, 0, 0, 0, none⟩).nextToken = some maxPages := by
      rw [hgo.2.1, if_pos (by omega : 0 + maxPages < catalog.length)]
      simp
    refine ⟨_, rfl, ?_, ?_, ?_⟩
    · rw [hgo.1]
      simp
    · rw [htok]
      rfl
    · exact htok

/-- Witness for C2 on a three-page catalog: a bound of 5 returns all three
items with hasMore = false; a bound of 2 returns the first two pages with
hasMore = true and the token of page 2. -/
theorem C2_pagination_witness :
    (∃ res, (getPhotosAlt exC2Catalog (fun _ => false)
        ⟨false, none, none, some 5, none, false⟩ none).discoveryResults
        = some res ∧
      res.items = exC2Catalog.flatten ∧
      res.totalItems = exC2Catalog.flatten.length ∧ res.hasMore = false) ∧
    (∃ res, (getPhotosAlt exC2Catalog (fun _ => false)
        ⟨false, none, none, some 2, none, false⟩ none).discoveryResults
        = some res ∧
      res.items = (exC2Catalog.take 2).flatten ∧ res.hasMore = true ∧
      (getPhotosAlt exC2Catalog (fun _ => false)
        ⟨false, none, none, some 2, none, false⟩ none).nextPageToken
        = some 2) := by
  constructor
  · exact (C2_pagination exC2Catalog 5 (by decide) (by decide)).1 (by decide)
  · exact (C2_pagination exC2Catalog 2 (by decide) (by decide)).2 (by decide)

/-! ## C7: the date-range post-pass -/

/-- C7: date filtering is a post-pass over the accumulated item list (the
engine's returned items are literally the filter applied to the loop
accumulation), applied only if both bounds are supplied; when applied, an
item with a creation timestamp is kept iff startDate ≤ t ≤ endDate with both
ends inclusive, and an item without a creation timestamp is dropped. -/
theorem C7_date_filter (sd ed : Int) (items : List DItem) :
    (∀ (ur : Bool) (s e : Option Int), s = none ∨ e = none →
      dateFilterPass ur s e items = items) ∧
    (∀ it : DItem, it ∈ items → ∀ t : Int, it.creationTime = some t →
      (it ∈ dateFilterPass true (some sd) (some ed) items ↔
        sd ≤ t ∧ t ≤ ed)) ∧
    (∀ it : DItem, it ∈ items → it.creationTime = none →
      it ∉ dateFilterPass true (some sd) (some ed) items) ∧
    (∀ (catalog : List (List DItem)) (cancel : Nat → Bool)
        (opts : DiscoOptions),
      (getPhotosAlt catalog cancel opts none).items =
        dateFilterPass opts.useDateRange opts.startDate opts.endDate
          (discoverGo catalog cancel
            (match opts.discoveryLimit with
             | some n => if n == 0 then 5 else n
             | none => 5) 0 opts.pageToken ⟨[], 0, 0, 0, 0, none⟩).items) := by
  refine ⟨?_, ?_, ?_, fun _ _ _ => rfl⟩
  · rintro ur s e (rfl | rfl)
    · cases ur <;> cases e <;> rfl
    · cases ur <;> cases s <;> rfl
  · intro it hmem t ht
    simp only [dateFilterPass, List.mem_filter, ht]
    simp [hmem]
  · intro it hmem ht
    simp only [dateFilterPass, List.mem_filter, ht]
    simp

/-- Witness for C7: an item exactly on the start bound is kept, one past the
end bound and one without a timestamp are dropped, and a missing bound turns
the pass off. -/
theorem C7_date_filter_witness :
    (⟨"x", true, false, some 10⟩ : DItem) ∈
      dateFilterPass true (some 10) (some 20) exC7Items ∧
    (⟨"y", true, false, some 21⟩ : DItem) ∉
      dateFilterPass true (some 10) (some 20) exC7Items ∧
    (⟨"z", true, false, none⟩ : DItem) ∉
      dateFilterPass true (some 10) (some 20) exC7Items ∧
    dateFilterPass true none (some 20) exC7Items = exC7Items := by
  have h := C7_date_filter 10 20 exC7Items
  refine ⟨?_, ?_, ?_, ?_⟩
  · exact (h.2.1 ⟨"x", true, false, some 10⟩ (by decide) 10 rfl).mpr (by decide)
  · intro hmem
    have := (h.2.1 ⟨"y", true, false, some 21⟩ (by decide) 21 rfl).mp hmem
    omega
  · exact h.2.2.1 ⟨"z", true, false, none⟩ (by decide) rfl
  · exact h.1 true none (some 20) (Or.inl rfl)

/-! ## C4: cleanup only on uninterrupted completion -/

/-- When the scheduling loop exits on its own (without exhausting fuel), the
flag-read index advanced, and either the queue and the active set are both
drained or the cancel flag was set at the final loop check. -/
theorem runLoop_exit (limit : Nat) (fsEx : String → Bool)
    (env : Nat → P6Flags) :
    ∀ (fuel i : Nat) (st st2 : P6State) (j : Nat),
      runLoop limit fsEx env fuel i st = some (st2, j) →
      i < j ∧
      ((st2.queue = [] ∧ st2.active = []) ∨
        (env (j - 1)).cancelled = true) := by
  intro fuel
  induction fuel with
  | zero => intro i st st2 j h; exact absurd h (by simp [runLoop])
  | succ f ih =>
    intro i st st2 j h
    simp only [runLoop] at h
    by_cases hcond :
        ((!st.queue.isEmpty || !st.active.isEmpty) && !(env i).cancelled)
          = true
    · rw [if_pos hcond] at h
      by_cases hp : (env i).paused = true
      · rw [if_pos hp] at h
        have hrec := ih (i + 1) st st2 j h
        exact ⟨by omega, hrec.2⟩
      · rw [if_neg hp] at h
        cases hs : (startNew limit fsEx (env i).paused (env i).cancelled
            st.queue st.active st.processed).1 with
        | nil =>
          rw [hs] at h
          have hrec := ih (i + 1) _ st2 j h
          exact ⟨by omega, hrec.2⟩
        | cons a rest =>
          rw [hs] at h
          have hrec := ih (i + 1) _ st2 j h
          exact ⟨by omega, hrec.2⟩
    · rw [if_neg hcond] at h
      rw [Option.some.injEq, Prod.mk.injEq] at h
      obtain ⟨hst, hj⟩ := h
      subst hst
      subst hj
      refine ⟨by omega, ?_⟩
      simp only [Bool.and_eq_true, Bool.or_eq_true, Bool.not_eq_true',
        not_and_or, not_or, Bool.not_eq_false] at hcond
      rcases hcond with ⟨hq, ha⟩ | hc
      · exact Or.inl ⟨List.isEmpty_iff.mp hq, List.isEmpty_iff.mp ha⟩
      · simpa using Or.inr hc

/-- C4: whenever a startSync run terminates and cleanupRemovedFiles actually
ran, the policy flag was enabled, the queue and active set were fully
drained (a full completion), the cancel flag was never set at any poll point
of the run, and the final status is not cancelled - so the deletion diff
never follows a cancelled run. -/
theorem C4_cleanup_guard (limit : Nat) (fsEx : String → Bool)
    (env : Nat → P6Flags) (cleanupEnabled : Bool) (fuel : Nat)
    (queue : List P6Item) (r : P6Result)
    (hmono : ∀ j k : Nat, j ≤ k → (env j).cancelled = true →
      (env k).cancelled = true)
    (hrun : startSyncOutcome limit fsEx env cleanupEnabled fuel queue = some r)
    (hclean : r.cleanupRan = true) :
    cleanupEnabled = true ∧
    r.finalQueue = [] ∧ r.finalActive = [] ∧
    (∀ k, k ≤ r.envIdx → (env k).cancelled = false) ∧
    r.finalStatus ≠ "cancelled" := by
  unfold startSyncOutcome at hrun
  cases hl : runLoop limit fsEx env fuel 0 ⟨queue, [], 0⟩ with
  | none => rw [hl] at hrun; exact absurd hrun (by simp)
  | some p =>
    obtain ⟨st, j⟩ := p
    rw [hl] at hrun
    rw [Option.some.injEq] at hrun
    subst hrun
    simp only [Bool.and_eq_true, Bool.not_eq_true'] at hclean
    obtain ⟨hcanc, hen⟩ := hclean
    have hnocancel : ∀ k, k ≤ j → (env k).cancelled = false := by
      intro k hk
      by_contra hne
      have : (env j).cancelled = true :=
        hmono k j hk (by revert hne; cases (env k).cancelled <;> simp)
      rw [this] at hcanc
      exact absurd hcanc (by simp)
    have hexit := runLoop_exit limit fsEx env fuel 0 ⟨queue, [], 0⟩ st j hl
    have hdrain : st.queue = [] ∧ st.active = [] := by
      rcases hexit.2 with hd | hc
      · exact hd
      · rw [hnocancel (j - 1) (by omega)] at hc
        exact absurd hc (by simp)
    refine ⟨hen, hdrain.1, rfl, hnocancel, ?_⟩
    rw [hcanc]
    by_cases hp : (env j).paused = true <;> simp [hp]

/-- Witness for C4: a one-item run with no external signals completes,
runs cleanup, and ends with everything drained and a non-cancelled status. -/
theorem C4_cleanup_guard_witness :
    startSyncOutcome 2 (fun _ => false) (fun _ => ⟨false, false⟩) true 10
        [⟨"a", "fa"⟩] = some ⟨[], [], 1, true, "completed", 2⟩ ∧
    ((fun _ : Nat => (⟨false, false⟩ : P6Flags)) 0).cancelled = false ∧
    "completed" ≠ "cancelled" := by
  have h := C4_cleanup_guard 2 (fun _ => false) (fun _ => ⟨false, false⟩)
    true 10 [⟨"a", "fa"⟩] ⟨[], [], 1, true, "completed", 2⟩
    (fun _ _ _ hc => hc) (by decide) rfl
  exact ⟨by decide, h.2.2.2.1 0 (by omega), h.2.2.2.2⟩

end GPSync
